import Mathlib

/-!
Verification development for the devotel-smart-insurance dynamic form engine.

The definitions below are a shallow embedding of the TypeScript source:
  * the form schema model (src/src/types/formTypes.ts),
  * the visibility evaluator `shouldShowField`, the dynamic option handler
    `handleCountryChange`, the submit handler `onFinish`, the draft
    persistence in `onValuesChange`, the drag handler `handleDragEnd`, and
    the `FieldRenderer` (all in src/src/pages/SubmissionListPage.tsx).
JavaScript values stored in the answer set are modelled by the inductive
type `Value`; JavaScript truthiness and strict equality against a string
literal are modelled explicitly.
-/

namespace SmartInsurance

/-! ## Data model (src/src/types/formTypes.ts) -/

/-- `Visibility` spec of a field.  The TS type annotates `condition` with the
union `"equals" | "not_equals"`, but the data arrives from the server
unchecked, so the embedding keeps it as a plain string (the evaluator itself
branches on the two known strings and falls through otherwise). -/
structure Visibility where
  dependsOn : String
  condition : String
  value : String
deriving DecidableEq, Repr

/-- `DynamicOptions` declaration of a field. -/
structure DynamicOptions where
  dependsOn : String
  endpoint : String
  method : String
deriving DecidableEq, Repr

/-- `Validation` constraints of a field. -/
structure Validation where
  min : Option Int
  max : Option Int
  pattern : Option String
deriving DecidableEq, Repr

/-- A `SimpleField`.  As with `condition`, the `type` discriminator is kept a
plain string because the renderer must tolerate unrecognized kinds. -/
structure SimpleField where
  id : String
  label : String
  type : String
  required : Bool
  options : Option (List String)
  dynamicOptions : Option DynamicOptions
  visibility : Option Visibility
  validation : Option Validation
deriving DecidableEq, Repr

/-- A `GroupField`: a flat list of simple member fields (depth-1 only). -/
structure GroupField where
  id : String
  label : String
  fields : List SimpleField
deriving DecidableEq, Repr

/-- `FieldItem`: tagged union of simple fields and groups. -/
inductive FieldItem where
  | simple (f : SimpleField)
  | group (g : GroupField)
deriving DecidableEq, Repr

/-- `id` of a field item (`f.id` on either branch in TS). -/
def FieldItem.id : FieldItem → String
  | .simple f => f.id
  | .group g => g.id

/-- `isGroup(item)` — discriminates the tagged union on `type === "group"`. -/
def isGroup : FieldItem → Bool
  | .simple _ => false
  | .group _ => true

/-- `FormStructure`: one form definition. -/
structure FormStructure where
  formId : String
  title : String
  fields : List FieldItem
deriving DecidableEq, Repr

/-! ## JavaScript values, truthiness, strict equality -/

/-- A JavaScript value as stored in the AnswerSet: string, number, boolean,
null, array, or undefined (absent).  Numbers are modelled as integers. -/
inductive Value where
  | str (s : String)
  | num (n : Int)
  | bool (b : Bool)
  | null
  | arr (xs : List Value)
  | undefined

/-- JavaScript truthiness: `""`, `0`, `false`, `null`, `undefined` are falsy;
every array (even the empty one) is truthy. -/
def Value.truthy : Value → Bool
  | .str s => !(s == "")
  | .num n => !(n == 0)
  | .bool b => b
  | .null => false
  | .arr _ => true
  | .undefined => false

/-- JavaScript strict equality `v === s` where `s` is a string literal:
true exactly when `v` is that same string; values of any other type
(including `undefined`) are never strictly equal to a string. -/
def Value.strictEqStr : Value → String → Bool
  | .str t, s => t == s
  | _, _ => false

/-- The AnswerSet: field id → current value (a JS object in the source). -/
abbrev AnswerSet := List (String × Value)

/-- `values[key]` on a JS object: the stored value, or `undefined`. -/
def getValue (values : AnswerSet) (key : String) : Value :=
  match values.lookup key with
  | some v => v
  | none => .undefined

/-! ## Visibility evaluator (`shouldShowField`) -/

/-- Embedding of `shouldShowField(field, values)`:
no visibility spec → `true`; `condition === "equals"` → strict equality of
the dependency's value with the configured string; `"not_equals"` → its
negation; any other condition string falls through to `true`. -/
def shouldShowField (field : SimpleField) (values : AnswerSet) : Bool :=
  match field.visibility with
  | none => true
  | some vis =>
    let dependsValue := getValue values vis.dependsOn
    if vis.condition == "equals" then
      dependsValue.strictEqStr vis.value
    else if vis.condition == "not_equals" then
      !(dependsValue.strictEqStr vis.value)
    else
      true

/-! ## Dynamic option resolver (`handleCountryChange`) -/

/-- The dynamic options cache `dynamicOptions : Record<string, string[]>`. -/
abbrev OptionsCache := List (String × List String)

/-- `setDynamicOptions((prev) => ({...prev, key: v}))`: the spread overwrites
`key`; modelled by prepending so that lookups find the newest binding. -/
def setCache (cache : OptionsCache) (key : String) (v : List String) : OptionsCache :=
  (key, v) :: cache

/-- `dynamicOptions[key]`: `some` when the key has ever been set. -/
def getCache (cache : OptionsCache) (key : String) : Option (List String) :=
  cache.lookup key

/-- Outcome of the `Array.isArray(res.data.states)` check on a successful
response payload: either an actual array of states, or anything else. -/
inductive StatesPayload where
  | arrayOf (states : List String)
  | notArray
deriving DecidableEq, Repr

/-- Outcome of the `api.get("/getStates", ...)` call: a resolved response
(with its payload shape) or a rejection caught by the `catch` block. -/
inductive FetchOutcome where
  | ok (payload : StatesPayload)
  | error
deriving DecidableEq, Repr

/-- Result of one completed run of `handleCountryChange`: the updated cache
and the query value of the fetch that was issued, if any. -/
structure CountryChangeResult where
  cache : OptionsCache
  requested : Option Value

/-- Embedding of `handleCountryChange(val)` run to completion with the fetch
resolving to `response`: falsy `val` resets `state` options to `[]` without
fetching; otherwise the fetch is issued with `{country: val}` and on
resolution the cache is set to the response's `states` array, or to `[]`
when the payload is not an array or the request failed (the `catch` arm). -/
def handleCountryChange (cache : OptionsCache) (val : Value) (response : FetchOutcome) :
    CountryChangeResult :=
  if !val.truthy then
    ⟨setCache cache "state" [], none⟩
  else
    match response with
    | .ok (.arrayOf states) => ⟨setCache cache "state" states, some val⟩
    | .ok .notArray => ⟨setCache cache "state" [], some val⟩
    | .error => ⟨setCache cache "state" [], some val⟩

/-! ## Interleaved option fetches

To reason about two country changes whose fetches resolve out of order, the
handler is split at its `await` point into discrete events: a country change
either resets the cache (falsy value) or issues a fetch; the resolution of a
fetch runs the rest of `handleCountryChange`, which writes the cache
unconditionally — the source has no check that the resolving fetch is still
the most recently issued one. -/

/-- Interpreter state for interleaved runs: the options cache plus the number
of fetches issued so far (fetch ids are issue-order indices). -/
structure ResolverState where
  cache : OptionsCache
  issued : Nat

/-- One event: a change of the `country` answer, or the resolution of a
previously issued fetch (identified by its issue-order index). -/
inductive DynEvent where
  | changeCountry (val : Value)
  | resolve (fetchId : Nat) (outcome : FetchOutcome)

/-- Event step.  A truthy country change issues a fetch (cache untouched
until resolution); a falsy one resets the cache.  A resolution writes the
cache exactly as the continuation of `handleCountryChange` does, with no
staleness comparison: the `fetchId` is ignored. -/
def stepEvent (st : ResolverState) : DynEvent → ResolverState
  | .changeCountry v =>
    if v.truthy then ⟨st.cache, st.issued + 1⟩
    else ⟨setCache st.cache "state" [], st.issued⟩
  | .resolve _ outcome =>
    match outcome with
    | .ok (.arrayOf states) => ⟨setCache st.cache "state" states, st.issued⟩
    | .ok .notArray => ⟨setCache st.cache "state" [], st.issued⟩
    | .error => ⟨setCache st.cache "state" [], st.issued⟩

/-- Run a sequence of events from a state. -/
def runEvents (st : ResolverState) (events : List DynEvent) : ResolverState :=
  events.foldl stepEvent st

/-- The fresh interpreter state: empty cache, no fetch issued. -/
def initialResolverState : ResolverState := ⟨[], 0⟩

/-! ## Submit handler (`onFinish`) -/

/-- The flattening loop at the top of `onFinish`: group members and
top-level simple fields, in order. -/
def flattenSimpleFields (items : List FieldItem) : List SimpleField :=
  items.flatMap fun item =>
    match item with
    | .group g => g.fields
    | .simple f => [f]

/-- The validation loop of `onFinish`: ids of the flattened fields that are
`required`, currently visible, and whose watched value is falsy. -/
def missingFields (selectedForm : FormStructure) (formValues : AnswerSet) : List String :=
  ((flattenSimpleFields selectedForm.fields).filter fun fld =>
    fld.required && shouldShowField fld formValues && !(getValue formValues fld.id).truthy).map
    (fun fld => fld.id)

/-- Interpreter phase after a submit attempt: still awaiting input, or
navigated to the submissions page after a successful submit. -/
inductive Phase where
  | awaitingInput
  | submitted
deriving DecidableEq, Repr

/-- Observable outcome of one `onFinish` run: the payloads passed to
`submitFormData` (in call order), the fields marked with a validation error,
the resulting phase, which notification was shown, and whether the
`submitting` flag was ever raised. -/
structure FinishOutcome where
  submitCalls : List AnswerSet
  fieldErrors : List String
  phase : Phase
  notifiedSuccess : Bool
  notifiedFailure : Bool
  enteredSubmitting : Bool

/-- Embedding of `onFinish(values)` for a selected form.  `formValues` is
the watched value set used for validation; `values` is the payload argument;
`submitOk` is whether `submitFormData` resolves.  When any required visible
field is missing, each such field is marked and the handler returns before
any network call; otherwise `submitFormData(values)` is called once, and the
handler navigates away on success or shows a failure message otherwise. -/
def onFinish (selectedForm : FormStructure) (formValues : AnswerSet) (values : AnswerSet)
    (submitOk : Bool) : FinishOutcome :=
  let missing := missingFields selectedForm formValues
  if missing.isEmpty then
    if submitOk then ⟨[values], [], .submitted, true, false, true⟩
    else ⟨[values], [], .awaitingInput, false, true, true⟩
  else
    ⟨[], missing, .awaitingInput, false, false, false⟩

/-! ## Page-level rendering of items (group logic of `DynamicFormPage`) -/

/-- What one top-level item contributes to the page: a group box listing the
member fields handed to `FieldRenderer`, or a single-field box. -/
inductive RenderedItem where
  | groupBox (id : String) (memberIds : List String)
  | singleBox (id : String)
deriving DecidableEq, Repr

/-- The map body of `selectedForm.fields.map(...)`: a group renders `null`
when no member passes its visibility condition and otherwise a box holding
exactly the visible members; a simple field renders `null` unless its own
visibility condition holds. -/
def renderItem (values : AnswerSet) : FieldItem → Option RenderedItem
  | .group g =>
    let visibleSubFields := g.fields.filter fun f => shouldShowField f values
    if visibleSubFields.isEmpty then none
    else some (.groupBox g.id (visibleSubFields.map fun f => f.id))
  | .simple f =>
    if shouldShowField f values then some (.singleBox f.id) else none

/-- The rendered top-level items of the form, `null` entries dropped. -/
def renderItems (items : List FieldItem) (values : AnswerSet) : List RenderedItem :=
  items.filterMap (renderItem values)

/-! ## Field renderer (`FieldRenderer`) -/

/-- The widget produced for one field.  Select-style widgets carry their
option labels, with the leading empty placeholder option included. -/
inductive Widget where
  | input
  | inputNumber (min : Option Int) (max : Option Int)
  | datePicker
  | selectBox (options : List String)
  | radioGroup (options : List String)
  | checkboxGroup (options : List String)
  | countrySelect (options : List String)
  | stateSelect (options : List String)
deriving DecidableEq, Repr

/-- `field.options || []`. -/
def fieldOptions (field : SimpleField) : List String :=
  match field.options with
  | some opts => opts
  | none => []

/-- Embedding of `FieldRenderer`: the `country` id renders its select
unconditionally; the `state` id renders nothing until `country` is truthy
and otherwise uses `dynamicOptions.state || field.options || []`; all other
fields dispatch on `field.type`, with unrecognized types hitting the
`default: return null` arm. -/
def fieldRenderer (field : SimpleField) (vals : AnswerSet) (dynamicOptions : OptionsCache) :
    Option Widget :=
  if field.id == "country" then
    some (.countrySelect ("" :: fieldOptions field))
  else if field.id == "state" then
    if !(getValue vals "country").truthy then none
    else
      some (.stateSelect ("" ::
        match getCache dynamicOptions "state" with
        | some states => states
        | none => fieldOptions field))
  else
    match field.type with
    | "text" => some .input
    | "number" =>
      some (.inputNumber (field.validation.bind fun v => v.min)
        (field.validation.bind fun v => v.max))
    | "date" => some .datePicker
    | "select" => some (.selectBox ("" :: fieldOptions field))
    | "radio" => some (.radioGroup (fieldOptions field))
    | "checkbox" => some (.checkboxGroup (fieldOptions field))
    | _ => none

/-- All widgets of the rendered form in order: the page's visibility
filtering composed with `FieldRenderer`, groups flattened. -/
def renderFormWidgets (items : List FieldItem) (values : AnswerSet)
    (dynamicOptions : OptionsCache) : List Widget :=
  items.flatMap fun item =>
    match item with
    | .group g =>
      let visibleSubFields := g.fields.filter fun f => shouldShowField f values
      if visibleSubFields.isEmpty then []
      else visibleSubFields.filterMap fun f => fieldRenderer f values dynamicOptions
    | .simple f =>
      if shouldShowField f values then (fieldRenderer f values dynamicOptions).toList
      else []

/-! ## Draft store (`localStorage` + `JSON.stringify`/`JSON.parse`)

`JSON.stringify` of the answer object drops entries whose value is
`undefined` and replaces `undefined` array elements by `null`; every other
AnswerSet value (string, number, boolean, null, nested array) maps to the
corresponding JSON node.  `JSON.parse` maps JSON nodes back to values. -/

/-- A JSON document as produced by `JSON.stringify` / consumed by
`JSON.parse`. -/
inductive Json where
  | str (s : String)
  | num (n : Int)
  | bool (b : Bool)
  | null
  | arr (xs : List Json)
  | obj (kvs : List (String × Json))

mutual

/-- `JSON.stringify` on one value: `none` when the value is `undefined`
(the enclosing object entry is dropped). -/
def encodeValue : Value → Option Json
  | .str s => some (.str s)
  | .num n => some (.num n)
  | .bool b => some (.bool b)
  | .null => some .null
  | .undefined => none
  | .arr xs => some (.arr (encodeElems xs))

/-- `JSON.stringify` on array elements: `undefined` becomes `null`. -/
def encodeElems : List Value → List Json
  | [] => []
  | v :: vs =>
    (match encodeValue v with
     | some j => j
     | none => .null) :: encodeElems vs

end

mutual

/-- `JSON.parse` on one node.  A parsed object node is not a legal
AnswerSet value in this model (drafts only store scalars, arrays and
dates per the schema), so it maps to `undefined`. -/
def decodeValue : Json → Value
  | .str s => .str s
  | .num n => .num n
  | .bool b => .bool b
  | .null => .null
  | .arr xs => .arr (decodeElems xs)
  | .obj _ => .undefined

/-- `JSON.parse` on array elements. -/
def decodeElems : List Json → List Value
  | [] => []
  | j :: js => decodeValue j :: decodeElems js

end

/-- `JSON.stringify(allValues)`: an object whose entries are the defined
(non-`undefined`) answers. -/
def jsonStringifyAnswers (answers : AnswerSet) : Json :=
  .obj (answers.filterMap fun kv =>
    match encodeValue kv.2 with
    | some j => some (kv.1, j)
    | none => none)

/-- `JSON.parse` of a stored draft back into an AnswerSet; only an object
document yields one. -/
def jsonParseAnswers : Json → Option AnswerSet
  | .obj kvs => some (kvs.map fun kv => (kv.1, decodeValue kv.2))
  | _ => none

/-- The `localStorage` key-value store (values are the serialized JSON). -/
abbrev Store := List (String × Json)

/-- `localStorage.setItem(key, v)`: newest binding shadows older ones. -/
def setItem (store : Store) (key : String) (v : Json) : Store :=
  (key, v) :: store

/-- `localStorage.getItem(key)`. -/
def getItem (store : Store) (key : String) : Option Json :=
  store.lookup key

/-- The draft save in `onValuesChange`:
`localStorage.setItem("draft_" + formId, JSON.stringify(allValues))`. -/
def saveDraft (store : Store) (formId : String) (answers : AnswerSet) : Store :=
  setItem store ("draft_" ++ formId) (jsonStringifyAnswers answers)

/-- The draft read in the form-selection effect:
`JSON.parse(localStorage.getItem("draft_" + formId))` when present. -/
def loadDraft (store : Store) (formId : String) : Option AnswerSet :=
  (getItem store ("draft_" ++ formId)).bind jsonParseAnswers

/-- The draft-persistence part of `onValuesChange(changed, allValues)`: when
some key changed and a form is selected, the full value set is saved under
that form's draft key; otherwise the store is untouched. -/
def onValuesChangeDraft (store : Store) (selectedForm : Option FormStructure)
    (changed : AnswerSet) (allValues : AnswerSet) : Store :=
  match changed.head? with
  | none => store
  | some _ =>
    match selectedForm with
    | some f => saveDraft store f.formId allValues
    | none => store

/-- A scalar AnswerSet value: string, number, boolean or null. -/
def scalarValue : Value → Bool
  | .str _ => true
  | .num _ => true
  | .bool _ => true
  | .null => true
  | .arr _ => false
  | .undefined => false

/-- A value the draft claim quantifies over: a scalar, or an array of
scalars (checkbox groups store arrays of strings). -/
def draftValue : Value → Bool
  | .arr xs => xs.all scalarValue
  | v => scalarValue v

/-! ## Field order controller (`handleDragEnd` with dnd-kit's `arrayMove`) -/

/-- dnd-kit's `arrayMove(array, from, to)`: remove the element at index
`from` and reinsert it at index `to` of the shortened array.  (`handleDragEnd`
only calls it with indices returned by `findIndex`, hence in range.) -/
def arrayMove (l : List FieldItem) (fromIdx toIdx : Nat) : List FieldItem :=
  match l.get? fromIdx with
  | none => l
  | some x => (l.eraseIdx fromIdx).insertIdx toIdx x

/-- `fields.findIndex((f) => f.id === targetId)` wrapped in an option:
`none` models `-1`. -/
def findIndexById (fields : List FieldItem) (targetId : String) : Option Nat :=
  fields.findIdx? fun f => f.id == targetId

/-- Embedding of `handleDragEnd`: no-op when there is no drop target, when
`active.id === over.id`, or when either id is absent from the current order
(`findIndex` returns `-1`); otherwise `arrayMove` from the old index to the
new one. -/
def handleDragEnd (fields : List FieldItem) (activeId : String) (over : Option String) :
    List FieldItem :=
  match over with
  | none => fields
  | some overId =>
    if activeId == overId then fields
    else
      match findIndexById fields activeId, findIndexById fields overId with
      | some oldIndex, some newIndex => arrayMove fields oldIndex newIndex
      | _, _ => fields

/-! ## Concrete fixtures -/

/-- The staleness scenario of the spec: change `country` to `"US"` (fetch 0,
`F1`), immediately change it to `"CA"` (fetch 1, `F2`), then `F2` resolves
with `["Ontario"]`, and only afterwards `F1` resolves with `["California"]`.
Each issued fetch resolves exactly once; `F1` resolves after `F2`. -/
def staleTrace : List DynEvent :=
  [.changeCountry (.str "US"),
   .changeCountry (.str "CA"),
   .resolve 1 (.ok (.arrayOf ["Ontario"])),
   .resolve 0 (.ok (.arrayOf ["California"]))]

/-- A top-level text field with the given id and no extras. -/
def textItem (i : String) : FieldItem :=
  .simple ⟨i, i, "text", false, none, none, none, none⟩

/-- The four-item order `[A, B, C, D]` from the reordering example. -/
def demoOrder : List FieldItem :=
  [textItem "fieldA", textItem "fieldB", textItem "fieldC", textItem "fieldD"]

/-! ## Helper lemmas -/

/-- Strict equality against a string holds exactly for that string value. -/
theorem strictEqStr_iff (v : Value) (s : String) :
    v.strictEqStr s = true ↔ v = .str s := by
  cases v <;> simp [Value.strictEqStr]

/-! ## C3: visibility evaluator contract -/

/-- C3.  `shouldShowField` is fail-open without a visibility spec and for
unrecognized conditions; with `equals` it is true exactly when the stored
dependency value is the configured string (an absent dependency — modelled
as `undefined` — or a value of any non-string type is never strictly equal, so
the result is false); with `not_equals` it is the negation, in particular
true when the dependency is absent. -/
theorem shouldShowField_contract (field : SimpleField) (values : AnswerSet) :
    (field.visibility = none → shouldShowField field values = true) ∧
    (∀ vis, field.visibility = some vis → vis.condition = "equals" →
      (shouldShowField field values = true ↔
        getValue values vis.dependsOn = .str vis.value)) ∧
    (∀ vis, field.visibility = some vis → vis.condition = "equals" →
      getValue values vis.dependsOn = .undefined → shouldShowField field values = false) ∧
    (∀ vis, field.visibility = some vis → vis.condition = "not_equals" →
      (shouldShowField field values = true ↔
        ¬ getValue values vis.dependsOn = .str vis.value)) ∧
    (∀ vis, field.visibility = some vis → vis.condition ≠ "equals" →
      vis.condition ≠ "not_equals" → shouldShowField field values = true) := by
  cases hv : field.visibility with
  | none =>
    refine ⟨fun _ => ?_, fun vis h => by simp [hv] at h, fun vis h => by simp [hv] at h,
      fun vis h => by simp [hv] at h, fun vis h => by simp [hv] at h⟩
    simp [shouldShowField, hv]
  | some vis0 =>
    have hshow : shouldShowField field values =
        (if vis0.condition == "equals" then
          (getValue values vis0.dependsOn).strictEqStr vis0.value
        else if vis0.condition == "not_equals" then
          !((getValue values vis0.dependsOn).strictEqStr vis0.value)
        else true) := by
      simp [shouldShowField, hv]
    refine ⟨fun h => by simp [hv] at h, ?_, ?_, ?_, ?_⟩
    · intro vis h hc
      have hveq : vis0 = vis := by simpa [hv] using h
      subst hveq
      rw [hshow, if_pos (by simp [hc])]
      exact strictEqStr_iff _ _
    · intro vis h hc habs
      have hveq : vis0 = vis := by simpa [hv] using h
      subst hveq
      rw [hshow, if_pos (by simp [hc]), habs]
      rfl
    · intro vis h hc
      have hveq : vis0 = vis := by simpa [hv] using h
      subst hveq
      have hne : (vis0.condition == "equals") = false := by simp [hc]
      rw [hshow, if_neg (by simp [hne]), if_pos (by simp [hc])]
      simp only [Bool.not_eq_true']
      constructor
      · intro hb hcontra
        rw [← strictEqStr_iff] at hcontra
        rw [hcontra] at hb
        cases hb
      · intro hnp
        cases hcase : (getValue values vis0.dependsOn).strictEqStr vis0.value
        · rfl
        · exact absurd ((strictEqStr_iff _ _).1 hcase) hnp
    · intro vis h hc1 hc2
      have hveq : vis0 = vis := by simpa [hv] using h
      subst hveq
      rw [hshow, if_neg (by simp [hc1]), if_neg (by simp [hc2])]

/-- Witness for C3: a concrete field depending on `smoker` with condition
`equals "Yes"`: visible when `smoker = "Yes"`, hidden when the answer is
absent; and a concrete unrecognized condition is fail-open. -/
theorem shouldShowField_contract_witness :
    (shouldShowField ⟨"discount", "Discount", "text", false, none, none,
        some ⟨"smoker", "equals", "Yes"⟩, none⟩ [("smoker", .str "Yes")] = true ↔
      getValue [("smoker", Value.str "Yes")] "smoker" = .str "Yes") ∧
    shouldShowField ⟨"discount", "Discount", "text", false, none, none,
        some ⟨"smoker", "equals", "Yes"⟩, none⟩ [] = false ∧
    shouldShowField ⟨"discount", "Discount", "text", false, none, none,
        some ⟨"smoker", "sometimes", "Yes"⟩, none⟩ [] = true := by
  refine ⟨?_, ?_, ?_⟩
  · exact (shouldShowField_contract _ _).2.1 ⟨"smoker", "equals", "Yes"⟩ rfl rfl
  · exact (shouldShowField_contract _ _).2.2.1 ⟨"smoker", "equals", "Yes"⟩ rfl rfl rfl
  · exact (shouldShowField_contract _ _).2.2.2.2 ⟨"smoker", "sometimes", "Yes"⟩ rfl
      (by decide) (by decide)

/-! ## Helper lemmas about `onFinish` -/

/-- A flattened field that is required, visible and falsy lands in the
missing list. -/
theorem mem_missingFields (selectedForm : FormStructure) (formValues : AnswerSet)
    (fld : SimpleField) (hmem : fld ∈ flattenSimpleFields selectedForm.fields)
    (hpred : (fld.required && shouldShowField fld formValues
      && !(getValue formValues fld.id).truthy) = true) :
    fld.id ∈ missingFields selectedForm formValues := by
  unfold missingFields
  exact List.mem_map.2 ⟨fld, List.mem_filter.2 ⟨hmem, hpred⟩, rfl⟩

/-- With a nonempty missing list, `onFinish` takes the early-return branch. -/
theorem onFinish_eq_blocked (selectedForm : FormStructure) (formValues values : AnswerSet)
    (submitOk : Bool) (h : missingFields selectedForm formValues ≠ []) :
    onFinish selectedForm formValues values submitOk =
      ⟨[], missingFields selectedForm formValues, .awaitingInput, false, false, false⟩ := by
  have hne : (missingFields selectedForm formValues).isEmpty = false := by
    cases hm : missingFields selectedForm formValues
    · exact absurd hm h
    · rfl
  simp [onFinish, hne]

/-- When every required visible flattened field is truthy, the missing list
is empty. -/
theorem missingFields_eq_nil (selectedForm : FormStructure) (formValues : AnswerSet)
    (hfilled : ∀ fld ∈ flattenSimpleFields selectedForm.fields, fld.required = true →
      shouldShowField fld formValues = true → (getValue formValues fld.id).truthy = true) :
    missingFields selectedForm formValues = [] := by
  unfold missingFields
  have hfil : (flattenSimpleFields selectedForm.fields).filter
      (fun fld => fld.required && shouldShowField fld formValues
        && !(getValue formValues fld.id).truthy) = [] := by
    rw [List.filter_eq_nil_iff]
    intro fld hf hp
    obtain ⟨⟨hr, hv⟩, hnt⟩ : (fld.required = true ∧ shouldShowField fld formValues = true)
        ∧ (!(getValue formValues fld.id).truthy) = true := by
      simpa [Bool.and_eq_true] using hp
    have htr := hfilled fld hf hr hv
    rw [htr] at hnt
    cases hnt
  rw [hfil]
  rfl

/-! ## C2: submit blocking -/

/-- C2.  If some flattened field is required, currently visible and its
watched value is empty (falsy, the code's emptiness test), then the submit
handler makes no call to the submit capability, marks that field with a
validation error, and the interpreter stays in the awaiting-input phase. -/
theorem onFinish_blocks_on_missing (selectedForm : FormStructure)
    (formValues values : AnswerSet) (submitOk : Bool) (fld : SimpleField)
    (hmem : fld ∈ flattenSimpleFields selectedForm.fields)
    (hreq : fld.required = true)
    (hvis : shouldShowField fld formValues = true)
    (hempty : (getValue formValues fld.id).truthy = false) :
    (onFinish selectedForm formValues values submitOk).submitCalls = [] ∧
    fld.id ∈ (onFinish selectedForm formValues values submitOk).fieldErrors ∧
    (onFinish selectedForm formValues values submitOk).phase = Phase.awaitingInput := by
  have hpred : (fld.required && shouldShowField fld formValues
      && !(getValue formValues fld.id).truthy) = true := by
    rw [hreq, hvis, hempty]
    rfl
  have hid := mem_missingFields selectedForm formValues fld hmem hpred
  have hblk := onFinish_eq_blocked selectedForm formValues values submitOk
    (List.ne_nil_of_mem hid)
  rw [hblk]
  exact ⟨rfl, hid, rfl⟩

/-- Witness for C2: a one-field form whose required `age` field is left
absent — no submit call, `age` marked, still awaiting input. -/
theorem onFinish_blocks_on_missing_witness :
    (onFinish ⟨"health_v1", "Health", [.simple ⟨"age", "Age", "number", true,
        none, none, none, none⟩]⟩ [] [] true).submitCalls = [] ∧
    "age" ∈ (onFinish ⟨"health_v1", "Health", [.simple ⟨"age", "Age", "number", true,
        none, none, none, none⟩]⟩ [] [] true).fieldErrors ∧
    (onFinish ⟨"health_v1", "Health", [.simple ⟨"age", "Age", "number", true,
        none, none, none, none⟩]⟩ [] [] true).phase = Phase.awaitingInput :=
  onFinish_blocks_on_missing ⟨"health_v1", "Health", [.simple ⟨"age", "Age", "number", true,
      none, none, none, none⟩]⟩ [] [] true ⟨"age", "Age", "number", true, none, none, none, none⟩
    (by decide) rfl rfl rfl

/-! ## C4: full-payload submission -/

/-- C4.  When every required-and-visible flattened field holds a truthy
value, the handler raises the submitting flag, calls the submit capability
exactly once with the payload passed in verbatim (the full AnswerSet, no
projection onto visible fields), marks nothing invalid, and ends submitted
with a success notification on success, or back awaiting input with a
failure notification otherwise. -/
theorem onFinish_full_payload (selectedForm : FormStructure)
    (formValues values : AnswerSet) (submitOk : Bool)
    (hfilled : ∀ fld ∈ flattenSimpleFields selectedForm.fields, fld.required = true →
      shouldShowField fld formValues = true → (getValue formValues fld.id).truthy = true) :
    (onFinish selectedForm formValues values submitOk).submitCalls = [values] ∧
    (onFinish selectedForm formValues values submitOk).enteredSubmitting = true ∧
    (onFinish selectedForm formValues values submitOk).fieldErrors = [] ∧
    (submitOk = true →
      (onFinish selectedForm formValues values submitOk).phase = Phase.submitted ∧
      (onFinish selectedForm formValues values submitOk).notifiedSuccess = true) ∧
    (submitOk = false →
      (onFinish selectedForm formValues values submitOk).phase = Phase.awaitingInput ∧
      (onFinish selectedForm formValues values submitOk).notifiedFailure = true) := by
  have hmiss := missingFields_eq_nil selectedForm formValues hfilled
  cases submitOk <;> simp [onFinish, hmiss]

/-- Witness for C4: a form whose only required field (`age`) is filled while
an invisible field's stored value (`nickname`) is also in the payload; the
single submit call carries both, and the success/failure transitions hold at
`submitOk = true`. -/
theorem onFinish_full_payload_witness :
    (onFinish ⟨"health_v1", "Health",
        [.simple ⟨"age", "Age", "number", true, none, none, none, none⟩,
         .simple ⟨"nickname", "Nickname", "text", false, none, none,
           some ⟨"smoker", "equals", "Yes"⟩, none⟩]⟩
      [("age", .num 30), ("nickname", .str "Al")]
      [("age", .num 30), ("nickname", .str "Al")] true).submitCalls
      = [[("age", Value.num 30), ("nickname", Value.str "Al")]] ∧
    (onFinish ⟨"health_v1", "Health",
        [.simple ⟨"age", "Age", "number", true, none, none, none, none⟩,
         .simple ⟨"nickname", "Nickname", "text", false, none, none,
           some ⟨"smoker", "equals", "Yes"⟩, none⟩]⟩
      [("age", .num 30), ("nickname", .str "Al")]
      [("age", .num 30), ("nickname", .str "Al")] true).phase = Phase.submitted := by
  have h := onFinish_full_payload ⟨"health_v1", "Health",
      [.simple ⟨"age", "Age", "number", true, none, none, none, none⟩,
       .simple ⟨"nickname", "Nickname", "text", false, none, none,
         some ⟨"smoker", "equals", "Yes"⟩, none⟩]⟩
    [("age", .num 30), ("nickname", .str "Al")]
    [("age", .num 30), ("nickname", .str "Al")] true (by decide)
  exact ⟨h.1, (h.2.2.2.1 rfl).1⟩

/-! ## C10: emptiness is JavaScript falsiness -/

/-- C10.  The emptiness test at submit time is JS falsiness of the watched
value: a required visible field whose value is the number `0` or the boolean
`false` is treated as missing — no submit call and a validation error on the
field — while an empty array is truthy, so it never makes its field block
submission (if every other required visible field is filled, the payload is
submitted). -/
theorem onFinish_falsiness (selectedForm : FormStructure)
    (formValues values : AnswerSet) (submitOk : Bool) (fld : SimpleField)
    (hmem : fld ∈ flattenSimpleFields selectedForm.fields)
    (hreq : fld.required = true)
    (hvis : shouldShowField fld formValues = true) :
    ((getValue formValues fld.id = .num 0 ∨ getValue formValues fld.id = .bool false) →
      (onFinish selectedForm formValues values submitOk).submitCalls = [] ∧
      fld.id ∈ (onFinish selectedForm formValues values submitOk).fieldErrors) ∧
    (getValue formValues fld.id = .arr [] →
      (∀ g ∈ flattenSimpleFields selectedForm.fields, g.required = true →
        shouldShowField g formValues = true →
        g = fld ∨ (getValue formValues g.id).truthy = true) →
      (onFinish selectedForm formValues values submitOk).submitCalls = [values]) := by
  constructor
  · intro hzero
    have hempty : (getValue formValues fld.id).truthy = false := by
      rcases hzero with h0 | h0 <;> rw [h0] <;> rfl
    have hpred : (fld.required && shouldShowField fld formValues
        && !(getValue formValues fld.id).truthy) = true := by
      rw [hreq, hvis, hempty]
      rfl
    have hid := mem_missingFields selectedForm formValues fld hmem hpred
    have hblk := onFinish_eq_blocked selectedForm formValues values submitOk
      (List.ne_nil_of_mem hid)
    rw [hblk]
    exact ⟨rfl, hid⟩
  · intro harr hothers
    have hfilled : ∀ g ∈ flattenSimpleFields selectedForm.fields, g.required = true →
        shouldShowField g formValues = true → (getValue formValues g.id).truthy = true := by
      intro g hg hgr hgv
      rcases hothers g hg hgr hgv with hgf | htr
      · rw [hgf, harr]
        rfl
      · exact htr
    have hmiss := missingFields_eq_nil selectedForm formValues hfilled
    cases submitOk <;> simp [onFinish, hmiss]

/-- Witness for C10: a required `consent` field whose value is the number 0
blocks submission, while a required `perks` checkbox group holding the empty
array does not block (the payload is submitted). -/
theorem onFinish_falsiness_witness :
    ((onFinish ⟨"f1", "F", [.simple ⟨"consent", "Consent", "number", true,
        none, none, none, none⟩]⟩ [("consent", .num 0)] [] true).submitCalls = [] ∧
      "consent" ∈ (onFinish ⟨"f1", "F", [.simple ⟨"consent", "Consent", "number", true,
        none, none, none, none⟩]⟩ [("consent", .num 0)] [] true).fieldErrors) ∧
    (onFinish ⟨"f1", "F", [.simple ⟨"perks", "Perks", "checkbox", true,
        none, none, none, none⟩]⟩ [("perks", .arr [])]
      [("perks", .arr [])] true).submitCalls = [[("perks", Value.arr [])]] := by
  constructor
  · exact (onFinish_falsiness ⟨"f1", "F", [.simple ⟨"consent", "Consent", "number", true,
        none, none, none, none⟩]⟩ [("consent", .num 0)] [] true
      ⟨"consent", "Consent", "number", true, none, none, none, none⟩
      (by decide) rfl rfl).1 (Or.inl rfl)
  · exact (onFinish_falsiness ⟨"f1", "F", [.simple ⟨"perks", "Perks", "checkbox", true,
        none, none, none, none⟩]⟩ [("perks", .arr [])] [("perks", .arr [])] true
      ⟨"perks", "Perks", "checkbox", true, none, none, none, none⟩
      (by decide) rfl rfl).2 rfl
      (by intro g hg hgr hgv; left; simpa [flattenSimpleFields] using hg)

/-! ## C5: group rendering -/

/-- C5.  A group is rendered exactly when at least one member passes its
visibility condition; with zero visible members the group contributes
nothing at all to the rendered item list (not an empty shell); and a
rendered group box hands exactly the visible members to the field renderer,
suppressing the invisible ones. -/
theorem group_rendering (g : GroupField) (values : AnswerSet) :
    ((renderItem values (.group g)).isSome = true ↔
      ∃ f ∈ g.fields, shouldShowField f values = true) ∧
    ((∀ f ∈ g.fields, shouldShowField f values = false) →
      ∀ pre post : List FieldItem,
        renderItems (pre ++ FieldItem.group g :: post) values =
          renderItems (pre ++ post) values) ∧
    (∀ r, renderItem values (.group g) = some r →
      r = .groupBox g.id ((g.fields.filter fun f => shouldShowField f values).map
        fun f => f.id)) := by
  refine ⟨?_, ?_, ?_⟩
  · simp only [renderItem]
    cases hvf : (g.fields.filter fun f => shouldShowField f values).isEmpty
    · have hne : (g.fields.filter fun f => shouldShowField f values) ≠ [] := by
        intro hcontra
        rw [hcontra] at hvf
        cases hvf
      rcases List.exists_mem_of_ne_nil _ hne with ⟨f, hf⟩
      rcases List.mem_filter.1 hf with ⟨hfin, hfshow⟩
      simp [hvf]
      exact ⟨f, hfin, hfshow⟩
    · have hnil : (g.fields.filter fun f => shouldShowField f values) = [] :=
        List.isEmpty_iff.1 hvf
      simp [hvf]
      intro f hfin
      have := List.filter_eq_nil_iff.1 hnil f hfin
      simpa using this
  · intro hall pre post
    have hnil : (g.fields.filter fun f => shouldShowField f values) = [] :=
      List.filter_eq_nil_iff.2 fun f hf => by simp [hall f hf]
    have hnone : renderItem values (.group g) = none := by
      simp [renderItem, hnil]
    simp [renderItems, List.filterMap_append, List.filterMap_cons, hnone]
  · intro r hr
    simp only [renderItem] at hr
    split at hr
    · cases hr
    · exact (Option.some.inj hr).symm

/-- Witness for C5: a group with one member hidden behind
`smoker equals Yes` and one unconditioned member, evaluated on the empty
answer set — the group is rendered and lists only the unconditioned member;
and the same group with only the hidden member contributes nothing. -/
theorem group_rendering_witness :
    ((renderItem [] (.group ⟨"grp", "Group",
        [⟨"discount", "Discount", "text", false, none, none,
           some ⟨"smoker", "equals", "Yes"⟩, none⟩,
         ⟨"name", "Name", "text", false, none, none, none, none⟩]⟩)).isSome = true ↔
      ∃ f ∈ [⟨"discount", "Discount", "text", false, none, none,
               some ⟨"smoker", "equals", "Yes"⟩, none⟩,
             (⟨"name", "Name", "text", false, none, none, none, none⟩ : SimpleField)],
        shouldShowField f [] = true) ∧
    renderItems [FieldItem.group ⟨"grp2", "Group2",
        [⟨"discount", "Discount", "text", false, none, none,
           some ⟨"smoker", "equals", "Yes"⟩, none⟩]⟩] [] =
      renderItems [] [] ∧
    (∀ r, renderItem [] (.group ⟨"grp", "Group",
        [⟨"discount", "Discount", "text", false, none, none,
           some ⟨"smoker", "equals", "Yes"⟩, none⟩,
         ⟨"name", "Name", "text", false, none, none, none, none⟩]⟩) = some r →
      r = .groupBox "grp" (([(⟨"discount", "Discount", "text", false, none, none,
           some ⟨"smoker", "equals", "Yes"⟩, none⟩ : SimpleField),
         ⟨"name", "Name", "text", false, none, none, none, none⟩].filter
           fun f => shouldShowField f []).map fun f => f.id)) := by
  refine ⟨(group_rendering _ _).1, ?_, (group_rendering _ _).2.2⟩
  have h := (group_rendering (⟨"grp2", "Group2",
      [⟨"discount", "Discount", "text", false, none, none,
         some ⟨"smoker", "equals", "Yes"⟩, none⟩]⟩ : GroupField) []).2.1
    (by decide) [] []
  simpa using h

/-! ## C7: reordering semantics -/

/-- C7.  `handleDragEnd` is a no-op without a drop target, when the dragged
and target ids coincide, and when either id is absent from the order; when
both ids occur (first occurrences at `i` and `j`) the item at `i` is removed
and reinserted at position `j` of the shortened list, shifting the items in
between by one. -/
theorem handleDragEnd_spec (fields : List FieldItem) (activeId overId : String) :
    handleDragEnd fields activeId none = fields ∧
    (activeId = overId → handleDragEnd fields activeId (some overId) = fields) ∧
    (findIndexById fields activeId = none →
      handleDragEnd fields activeId (some overId) = fields) ∧
    (findIndexById fields overId = none →
      handleDragEnd fields activeId (some overId) = fields) ∧
    (∀ i j x, activeId ≠ overId → findIndexById fields activeId = some i →
      findIndexById fields overId = some j → fields[i]? = some x →
      handleDragEnd fields activeId (some overId) =
        (fields.eraseIdx i).insertIdx j x) := by
  refine ⟨rfl, ?_, ?_, ?_, ?_⟩
  · intro h
    simp [handleDragEnd, h]
  · intro h
    by_cases heq : activeId = overId
    · simp [handleDragEnd, heq]
    · simp [handleDragEnd, heq, h]
  · intro h
    by_cases heq : activeId = overId
    · simp [handleDragEnd, heq]
    · cases hA : findIndexById fields activeId <;>
        simp [handleDragEnd, heq, hA, h]
  · intro i j x hne hi hj hx
    simp [handleDragEnd, hne, hi, hj, arrayMove, hx]

/-- Witness for C7: on the order `[A, B, C, D]`, dragging `fieldA` onto
`fieldC` removes `A` at index 0 and reinserts it at index 2, which evaluates
to `[B, C, A, D]`; dragging `fieldA` onto itself leaves the order unchanged;
and dragging an absent id is a no-op. -/
theorem handleDragEnd_spec_witness :
    handleDragEnd demoOrder "fieldA" (some "fieldC") =
      [textItem "fieldB", textItem "fieldC", textItem "fieldA", textItem "fieldD"] ∧
    handleDragEnd demoOrder "fieldA" (some "fieldA") = demoOrder ∧
    handleDragEnd demoOrder "fieldZ" (some "fieldC") = demoOrder := by
  refine ⟨?_, ?_, ?_⟩
  · have h := (handleDragEnd_spec demoOrder "fieldA" "fieldC").2.2.2.2 0 2
      (textItem "fieldA") (by decide) rfl rfl rfl
    simpa [demoOrder] using h
  · exact (handleDragEnd_spec demoOrder "fieldA" "fieldA").2.1 rfl
  · exact (handleDragEnd_spec demoOrder "fieldZ" "fieldC").2.2.1 rfl

/-! ## C8: dynamic option failure recovery -/

/-- C8.  On a trigger change: a falsy new value resets the dependent
(`state`) options to the empty list without issuing a fetch; a truthy value
issues exactly one fetch with that value, and a failed request or a
non-array `states` payload likewise resets the options to empty, while an
array payload replaces them; in every case the resolver returns normally
with a defined (possibly empty) option list — no error propagates. -/
theorem countryChange_recovery (cache : OptionsCache) (val : Value)
    (response : FetchOutcome) :
    (val.truthy = false →
      handleCountryChange cache val response = ⟨setCache cache "state" [], none⟩) ∧
    (val.truthy = true →
      (handleCountryChange cache val response).requested = some val) ∧
    (val.truthy = true → response = .error →
      (handleCountryChange cache val response).cache = setCache cache "state" []) ∧
    (val.truthy = true → response = .ok .notArray →
      (handleCountryChange cache val response).cache = setCache cache "state" []) ∧
    (∀ states, val.truthy = true → response = .ok (.arrayOf states) →
      (handleCountryChange cache val response).cache = setCache cache "state" states) ∧
    (getCache (handleCountryChange cache val response).cache "state").isSome = true := by
  refine ⟨?_, ?_, ?_, ?_, ?_, ?_⟩
  · intro hb
    simp [handleCountryChange, hb]
  · intro hb
    cases response with
    | ok p => cases p <;> simp [handleCountryChange, hb]
    | error => simp [handleCountryChange, hb]
  · intro hb herr
    subst herr
    simp [handleCountryChange, hb]
  · intro hb hna
    subst hna
    simp [handleCountryChange, hb]
  · intro states hb harr
    subst harr
    simp [handleCountryChange, hb]
  · cases hb : val.truthy
    · simp [handleCountryChange, hb, getCache, setCache, List.lookup]
    · cases response with
      | ok p => cases p <;> simp [handleCountryChange, hb, getCache, setCache, List.lookup]
      | error => simp [handleCountryChange, hb, getCache, setCache, List.lookup]

/-- Witness for C8: with an empty cache, an empty-string country resets the
`state` options without fetching; with country `"US"`, a failed request and
a non-array payload both reset to empty, and an array payload replaces the
list. -/
theorem countryChange_recovery_witness :
    handleCountryChange [] (.str "") .error = ⟨setCache [] "state" [], none⟩ ∧
    (handleCountryChange [] (.str "US") .error).cache = setCache [] "state" [] ∧
    (handleCountryChange [] (.str "US") (.ok .notArray)).cache = setCache [] "state" [] ∧
    (handleCountryChange [] (.str "US")
      (.ok (.arrayOf ["California", "Texas"]))).cache
      = setCache [] "state" ["California", "Texas"] := by
  refine ⟨?_, ?_, ?_, ?_⟩
  · exact (countryChange_recovery [] (.str "") .error).1 rfl
  · exact (countryChange_recovery [] (.str "US") .error).2.2.1 rfl rfl
  · exact (countryChange_recovery [] (.str "US") (.ok .notArray)).2.2.2.1 rfl rfl
  · exact (countryChange_recovery [] (.str "US")
      (.ok (.arrayOf ["California", "Texas"]))).2.2.2.2.1 ["California", "Texas"] rfl rfl

/-! ## C1: staleness of interleaved option fetches -/

/-- Counterexample to C1.  In the spec's own scenario — fetch `F1` issued
for `"US"`, then fetch `F2` issued for `"CA"`, `F2` resolving first with
`["Ontario"]` and the stale `F1` resolving last with `["California"]` — the
cached options for the dependent field end up equal to `F1`'s result, not
`F2`'s: the resolution handler writes the cache unconditionally, so the
stale response overwrites the newer one. -/
theorem stale_fetch_counterexample :
    (runEvents initialResolverState staleTrace).issued = 2 ∧
    getCache (runEvents initialResolverState staleTrace).cache "state"
      = some ["California"] ∧
    ¬ getCache (runEvents initialResolverState staleTrace).cache "state"
      = some ["Ontario"] := by
  refine ⟨rfl, rfl, by decide⟩

/-- C1 as amended.  The cached option list for the dependent field always
equals the result of the most recently *resolved* fetch (last-write-wins by
response arrival order, not by trigger order): after any event history, a
final resolution carrying an option array `states` leaves the cache at
`states`, whether or not a newer fetch had been issued in the meantime. -/
theorem cache_follows_arrival_order (st : ResolverState) (events : List DynEvent)
    (fetchId : Nat) (states : List String) :
    getCache (runEvents st (events ++
      [DynEvent.resolve fetchId (.ok (.arrayOf states))])).cache "state"
      = some states := by
  rw [runEvents, List.foldl_append]
  simp [stepEvent, getCache, setCache, List.lookup]

/-! ## Helper lemmas about JSON serialization -/

/-- Scalar values survive serialization even through the array-element
path (which maps `undefined` to `null`). -/
theorem scalar_round (v : Value) (h : scalarValue v = true) :
    decodeValue (match encodeValue v with | some j => j | none => Json.null) = v := by
  cases v with
  | str s => rfl
  | num n => rfl
  | bool b => rfl
  | null => rfl
  | arr xs => cases h
  | undefined => cases h

/-- Arrays of scalars survive element-wise serialization. -/
theorem elems_round (xs : List Value) (h : xs.all scalarValue = true) :
    decodeElems (encodeElems xs) = xs := by
  induction xs with
  | nil => rfl
  | cons y ys ih =>
    rw [List.all_cons, Bool.and_eq_true] at h
    simp only [encodeElems, decodeElems]
    rw [scalar_round y h.1, ih h.2]

/-- Every draft value (scalar or array of scalars) encodes to a JSON node
that decodes back to it. -/
theorem draft_value_round (v : Value) (h : draftValue v = true) :
    ∃ j, encodeValue v = some j ∧ decodeValue j = v := by
  cases v with
  | str s => exact ⟨.str s, rfl, rfl⟩
  | num n => exact ⟨.num n, rfl, rfl⟩
  | bool b => exact ⟨.bool b, rfl, rfl⟩
  | null => exact ⟨.null, rfl, rfl⟩
  | arr xs =>
    refine ⟨.arr (encodeElems xs), rfl, ?_⟩
    have hx : xs.all scalarValue = true := h
    simp only [decodeValue]
    rw [elems_round xs hx]
  | undefined => cases h

/-- Object-level serialization round-trips entry lists of draft values. -/
theorem stringify_parse_entries (a : AnswerSet)
    (h : a.all (fun kv => draftValue kv.2) = true) :
    ((a.filterMap fun kv =>
        match encodeValue kv.2 with
        | some j => some (kv.1, j)
        | none => none).map fun kv => (kv.1, decodeValue kv.2)) = a := by
  induction a with
  | nil => rfl
  | cons kv rest ih =>
    obtain ⟨k, v⟩ := kv
    rw [List.all_cons, Bool.and_eq_true] at h
    obtain ⟨j, hj, hdj⟩ := draft_value_round v h.1
    simp only [List.filterMap_cons, hj, List.map_cons]
    rw [hdj, ih h.2]

/-! ## C6: draft round-trip -/

/-- C6.  For every change event (some key changed, a form selected) the
whole AnswerSet is saved under the key `draft_<formId>`; and for every
AnswerSet of scalar and array values, saving and then loading the draft of
that form yields the same AnswerSet back. -/
theorem draft_round_trip (store : Store) (f : FormStructure)
    (changed allValues : AnswerSet) (hch : changed ≠ [])
    (hwf : allValues.all (fun kv => draftValue kv.2) = true) :
    onValuesChangeDraft store (some f) changed allValues =
      saveDraft store f.formId allValues ∧
    getItem (saveDraft store f.formId allValues) ("draft_" ++ f.formId) =
      some (jsonStringifyAnswers allValues) ∧
    loadDraft (saveDraft store f.formId allValues) f.formId = some allValues := by
  refine ⟨?_, ?_, ?_⟩
  · cases changed with
    | nil => exact absurd rfl hch
    | cons c cs => rfl
  · simp [getItem, saveDraft, setItem, List.lookup]
  · show (getItem (setItem store ("draft_" ++ f.formId) (jsonStringifyAnswers allValues))
      ("draft_" ++ f.formId)).bind jsonParseAnswers = some allValues
    have hget : getItem (setItem store ("draft_" ++ f.formId)
        (jsonStringifyAnswers allValues)) ("draft_" ++ f.formId) =
        some (jsonStringifyAnswers allValues) := by
      simp [getItem, setItem, List.lookup]
    rw [hget]
    show jsonParseAnswers (jsonStringifyAnswers allValues) = some allValues
    simp only [jsonStringifyAnswers, jsonParseAnswers]
    rw [stringify_parse_entries allValues hwf]

/-- Witness for C6: a concrete AnswerSet holding a string, a number, a
boolean and an array of strings round-trips through the draft store of form
`health_v1`, and the change handler saves exactly that draft. -/
theorem draft_round_trip_witness :
    onValuesChangeDraft [] (some ⟨"health_v1", "Health", []⟩)
        [("name", .str "Ann")]
        [("name", .str "Ann"), ("age", .num 30), ("smoker", .bool false),
         ("hobbies", .arr [.str "ski", .str "chess"])] =
      saveDraft [] "health_v1"
        [("name", .str "Ann"), ("age", .num 30), ("smoker", .bool false),
         ("hobbies", .arr [.str "ski", .str "chess"])] ∧
    loadDraft (saveDraft [] "health_v1"
        [("name", .str "Ann"), ("age", .num 30), ("smoker", .bool false),
         ("hobbies", .arr [.str "ski", .str "chess"])]) "health_v1" =
      some [("name", .str "Ann"), ("age", .num 30), ("smoker", .bool false),
         ("hobbies", .arr [.str "ski", .str "chess"])] := by
  have h := draft_round_trip [] ⟨"health_v1", "Health", []⟩ [("name", .str "Ann")]
    [("name", .str "Ann"), ("age", .num 30), ("smoker", .bool false),
     ("hobbies", .arr [.str "ski", .str "chess"])]
    (List.cons_ne_nil _ _) rfl
  exact ⟨h.1, h.2.2⟩

/-! ## C9: unrecognized kinds are non-renderable, not fatal -/

/-- C9.  A simple field whose kind is none of the six recognized ones and
whose id is neither of the special-cased `country`/`state` produces no
widget, and a form containing it renders exactly the widgets of the same
form without it: the unrecognized field never fails the rest of the form. -/
theorem unknown_kind_renders_nothing (field : SimpleField) (values : AnswerSet)
    (dynOpts : OptionsCache) (pre post : List FieldItem)
    (hkind : ¬ field.type ∈ ["text", "number", "date", "select", "radio", "checkbox"])
    (hc : field.id ≠ "country") (hs : field.id ≠ "state") :
    fieldRenderer field values dynOpts = none ∧
    renderFormWidgets (pre ++ FieldItem.simple field :: post) values dynOpts =
      renderFormWidgets (pre ++ post) values dynOpts := by
  have hc1 : (field.id == "country") = false := by simp [hc]
  have hs1 : (field.id == "state") = false := by simp [hs]
  have h1 : fieldRenderer field values dynOpts = none := by
    simp only [fieldRenderer, hc1, hs1, Bool.false_eq_true, if_false]
    split
    · rename_i heq
      exact absurd (by rw [heq]; decide) hkind
    · rename_i heq
      exact absurd (by rw [heq]; decide) hkind
    · rename_i heq
      exact absurd (by rw [heq]; decide) hkind
    · rename_i heq
      exact absurd (by rw [heq]; decide) hkind
    · rename_i heq
      exact absurd (by rw [heq]; decide) hkind
    · rename_i heq
      exact absurd (by rw [heq]; decide) hkind
    · rfl
  refine ⟨h1, ?_⟩
  simp [renderFormWidgets, List.flatMap_append, List.flatMap_cons, h1]

/-- Witness for C9: a field of unrecognized kind `wobble` renders no widget,
and a form with it between two text fields renders the same widgets as the
form without it. -/
theorem unknown_kind_renders_nothing_witness :
    fieldRenderer ⟨"w", "W", "wobble", false, none, none, none, none⟩ [] [] = none ∧
    renderFormWidgets [textItem "fieldA",
        FieldItem.simple ⟨"w", "W", "wobble", false, none, none, none, none⟩,
        textItem "fieldB"] [] [] =
      renderFormWidgets [textItem "fieldA", textItem "fieldB"] [] [] := by
  have h := unknown_kind_renders_nothing
    ⟨"w", "W", "wobble", false, none, none, none, none⟩ [] []
    [textItem "fieldA"] [textItem "fieldB"] (by decide) (by decide) (by decide)
  exact h

end SmartInsurance
